import Mathlib

/-!
Verification of the bill-allocation core of the Electricity Bill Management
application (src/App.tsx and src/components/TrendsDashboard.tsx).

The TypeScript `number` type is modelled by `ℚ`: every quantity the core
manipulates is obtained from the inputs by `+ - * / min max`, so the claims,
which are stated in exact real arithmetic, are settled over the rationals.
-/

namespace ElectricityBill

/-- One pricing tier: `{ limit, rate }` (src/App.tsx, types). -/
structure Slab where
  limit : ℚ
  rate : ℚ
deriving DecidableEq

/-- One meter (main or sub): `{ id, name, meterNo, previous, current }`. -/
structure MeterReading where
  id : String
  name : String
  meterNo : String
  previous : ℚ
  current : ℚ
deriving DecidableEq

/-- Tariff configuration: `{ slabs, vatRate, demandCharge, meterRent, bkashCharge }`. -/
structure TariffConfig where
  slabs : List Slab
  vatRate : ℚ
  demandCharge : ℚ
  meterRent : ℚ
  bkashCharge : ℚ
deriving DecidableEq

/-- Per-period flags of `BillConfig` used by the engine. -/
structure BillConfig where
  includeLateFee : Bool
  includeBkashFee : Bool
deriving DecidableEq

/-- One output row per sub-meter (src/App.tsx, `UserCalculation`). -/
structure UserCalculation where
  id : String
  name : String
  unitsUsed : ℚ
  energyCost : ℚ
  fixedCost : ℚ
  totalPayable : ℚ
  previous : ℚ
  current : ℚ
deriving DecidableEq

/-- The engine's output record (src/App.tsx, `BillCalculationResult`). -/
structure BillCalculationResult where
  vatFixed : ℚ
  vatDistributed : ℚ
  vatTotal : ℚ
  lateFee : ℚ
  calculatedRate : ℚ
  totalUnits : ℚ
  userCalculations : List UserCalculation
  totalCollection : ℚ
deriving DecidableEq

/-- The slab-walking loop of `calculateEnergyCost` (src/App.tsx lines 30-43):
state is `(remainingUnits, energyCost)`, the third argument is the running
accumulator `energyCost`, the fourth is `previousLimit`.  The guarded update
and the early `break` on `remainingUnits <= 0` are translated literally. -/
def ecLoop : List Slab → ℚ → ℚ → ℚ → ℚ × ℚ
  | [], remainingUnits, energyCost, _ => (remainingUnits, energyCost)
  | slab :: rest, remainingUnits, energyCost, previousLimit =>
    let slabSize := slab.limit - previousLimit
    let unitsInSlab := min remainingUnits slabSize
    if 0 < unitsInSlab then
      let energyCost' := energyCost + unitsInSlab * slab.rate
      let remainingUnits' := remainingUnits - unitsInSlab
      if remainingUnits' ≤ 0 then (remainingUnits', energyCost')
      else ecLoop rest remainingUnits' energyCost' slab.limit
    else
      if remainingUnits ≤ 0 then (remainingUnits, energyCost)
      else ecLoop rest remainingUnits energyCost slab.limit

/-- `calculateEnergyCost` (src/App.tsx lines 29-51): run the loop from
`remainingUnits = units`, `energyCost = 0`, `previousLimit = 0`; afterwards, if
`remainingUnits > 0 && slabs.length > 0`, bill the remainder at the last
slab's rate. -/
def calculateEnergyCost (units : ℚ) (slabs : List Slab) : ℚ :=
  let out := ecLoop slabs units 0 0
  if 0 < out.1 ∧ 0 < slabs.length then
    out.2 + out.1 * ((slabs.getLast?).getD ⟨0, 0⟩).rate
  else
    out.2

/-- `mainUnits = Math.max(0, mainMeter.current - mainMeter.previous)`
(src/App.tsx line 62). -/
def mainUnits (mainMeter : MeterReading) : ℚ :=
  max 0 (mainMeter.current - mainMeter.previous)

/-- `energyCostBase = calculateEnergyCost(mainUnits, tariffConfig.slabs)`
(src/App.tsx line 64). -/
def energyCostBase (mainMeter : MeterReading) (tariffConfig : TariffConfig) : ℚ :=
  calculateEnergyCost (mainUnits mainMeter) tariffConfig.slabs

/-- `fixedBase = DEMAND_CHARGE + METER_RENT` (src/App.tsx line 65). -/
def fixedBase (tariffConfig : TariffConfig) : ℚ :=
  tariffConfig.demandCharge + tariffConfig.meterRent

/-- `taxableBase = energyCostBase + fixedBase` (src/App.tsx line 66). -/
def taxableBase (mainMeter : MeterReading) (tariffConfig : TariffConfig) : ℚ :=
  energyCostBase mainMeter tariffConfig + fixedBase tariffConfig

/-- `vatTotal = taxableBase * VAT_RATE` (src/App.tsx line 67). -/
def vatTotal (mainMeter : MeterReading) (tariffConfig : TariffConfig) : ℚ :=
  taxableBase mainMeter tariffConfig * tariffConfig.vatRate

/-- `lateFee = config.includeLateFee ? vatTotal : 0` (src/App.tsx line 68). -/
def lateFee (config : BillConfig) (mainMeter : MeterReading)
    (tariffConfig : TariffConfig) : ℚ :=
  if config.includeLateFee then vatTotal mainMeter tariffConfig else 0

/-- `bkash = config.includeBkashFee ? tariffConfig.bkashCharge : 0`
(src/App.tsx line 69). -/
def bkash (config : BillConfig) (tariffConfig : TariffConfig) : ℚ :=
  if config.includeBkashFee then tariffConfig.bkashCharge else 0

/-- `totalBillCalculated = taxableBase + vatTotal + lateFee + bkash`
(src/App.tsx line 71). -/
def totalBillCalculated (config : BillConfig) (mainMeter : MeterReading)
    (tariffConfig : TariffConfig) : ℚ :=
  taxableBase mainMeter tariffConfig + vatTotal mainMeter tariffConfig +
    lateFee config mainMeter tariffConfig + bkash config tariffConfig

/-- `vatFixed = fixedBase * VAT_RATE` (src/App.tsx line 72). -/
def vatFixed (tariffConfig : TariffConfig) : ℚ :=
  fixedBase tariffConfig * tariffConfig.vatRate

/-- `vatDistributed = vatTotal - vatFixed` (src/App.tsx line 73). -/
def vatDistributed (mainMeter : MeterReading) (tariffConfig : TariffConfig) : ℚ :=
  vatTotal mainMeter tariffConfig - vatFixed tariffConfig

/-- One sub-meter's contribution to `totalSubmeterUnits`
(src/App.tsx lines 76-79: `units > 0 ? units : 0` with
`units = m.current - m.previous`). -/
def subUnit (m : MeterReading) : ℚ :=
  let units := m.current - m.previous
  if 0 < units then units else 0

/-- `totalSubmeterUnits`: the `forEach` accumulation over `meters`
(src/App.tsx lines 75-79). -/
def totalSubmeterUnits (meters : List MeterReading) : ℚ :=
  (meters.map subUnit).sum

/-- `fixedSharedPool = fixedBase + vatFixed + bkash + lateFee`
(src/App.tsx line 81). -/
def fixedSharedPool (config : BillConfig) (mainMeter : MeterReading)
    (tariffConfig : TariffConfig) : ℚ :=
  fixedBase tariffConfig + vatFixed tariffConfig + bkash config tariffConfig +
    lateFee config mainMeter tariffConfig

/-- `fixedCostPerUser = meters.length > 0 ? fixedSharedPool / meters.length : 0`
(src/App.tsx line 82). -/
def fixedCostPerUser (config : BillConfig) (mainMeter : MeterReading)
    (meters : List MeterReading) (tariffConfig : TariffConfig) : ℚ :=
  if 0 < meters.length then
    fixedSharedPool config mainMeter tariffConfig / (meters.length : ℚ)
  else 0

/-- `energySharedPool = energyCostBase + vatDistributed` (src/App.tsx line 84). -/
def energySharedPool (mainMeter : MeterReading) (tariffConfig : TariffConfig) : ℚ :=
  energyCostBase mainMeter tariffConfig + vatDistributed mainMeter tariffConfig

/-- `calculatedRate = totalSubmeterUnits > 0 ? energySharedPool / totalSubmeterUnits : 0`
(src/App.tsx line 85). -/
def calculatedRate (mainMeter : MeterReading) (meters : List MeterReading)
    (tariffConfig : TariffConfig) : ℚ :=
  if 0 < totalSubmeterUnits meters then
    energySharedPool mainMeter tariffConfig / totalSubmeterUnits meters
  else 0

/-- `calculateBillBreakdown` (src/App.tsx lines 53-113), assembled from the
intermediate quantities above, each of which is the literal translation of the
corresponding `const` in the source. -/
def calculateBillBreakdown (config : BillConfig) (mainMeter : MeterReading)
    (meters : List MeterReading) (tariffConfig : TariffConfig) :
    BillCalculationResult :=
  { vatFixed := vatFixed tariffConfig
    vatDistributed := vatDistributed mainMeter tariffConfig
    vatTotal := vatTotal mainMeter tariffConfig
    lateFee := lateFee config mainMeter tariffConfig
    calculatedRate := calculatedRate mainMeter meters tariffConfig
    totalUnits := totalSubmeterUnits meters
    userCalculations := meters.map (fun m =>
      let units := max 0 (m.current - m.previous)
      let userEnergyCost := units * calculatedRate mainMeter meters tariffConfig
      { id := m.id
        name := m.name
        unitsUsed := units
        energyCost := userEnergyCost
        fixedCost := fixedCostPerUser config mainMeter meters tariffConfig
        totalPayable := userEnergyCost + fixedCostPerUser config mainMeter meters tariffConfig
        previous := m.previous
        current := m.current })
    totalCollection := totalBillCalculated config mainMeter tariffConfig }

/-- The second, textually identical copy of the slab loop
(src/App.tsx lines 449-462, inside the second `calculateEnergyCost`). -/
def ecLoop2 : List Slab → ℚ → ℚ → ℚ → ℚ × ℚ
  | [], remainingUnits, energyCost, _ => (remainingUnits, energyCost)
  | slab :: rest, remainingUnits, energyCost, previousLimit =>
    let slabSize := slab.limit - previousLimit
    let unitsInSlab := min remainingUnits slabSize
    if 0 < unitsInSlab then
      let energyCost' := energyCost + unitsInSlab * slab.rate
      let remainingUnits' := remainingUnits - unitsInSlab
      if remainingUnits' ≤ 0 then (remainingUnits', energyCost')
      else ecLoop2 rest remainingUnits' energyCost' slab.limit
    else
      if remainingUnits ≤ 0 then (remainingUnits, energyCost)
      else ecLoop2 rest remainingUnits energyCost slab.limit

/-- The second copy of `calculateEnergyCost` (src/App.tsx lines 448-470). -/
def calculateEnergyCost2 (units : ℚ) (slabs : List Slab) : ℚ :=
  let out := ecLoop2 slabs units 0 0
  if 0 < out.1 ∧ 0 < slabs.length then
    out.2 + out.1 * ((slabs.getLast?).getD ⟨0, 0⟩).rate
  else
    out.2

/-- The slab loop of the copy in src/components/TrendsDashboard.tsx
(lines 15-28). -/
def trendsEcLoop : List Slab → ℚ → ℚ → ℚ → ℚ × ℚ
  | [], remainingUnits, energyCost, _ => (remainingUnits, energyCost)
  | slab :: rest, remainingUnits, energyCost, previousLimit =>
    let slabSize := slab.limit - previousLimit
    let unitsInSlab := min remainingUnits slabSize
    if 0 < unitsInSlab then
      let energyCost' := energyCost + unitsInSlab * slab.rate
      let remainingUnits' := remainingUnits - unitsInSlab
      if remainingUnits' ≤ 0 then (remainingUnits', energyCost')
      else trendsEcLoop rest remainingUnits' energyCost' slab.limit
    else
      if remainingUnits ≤ 0 then (remainingUnits, energyCost)
      else trendsEcLoop rest remainingUnits energyCost slab.limit

/-- The copy of `calculateEnergyCost` in src/components/TrendsDashboard.tsx
(lines 14-36). -/
def trendsCalculateEnergyCost (units : ℚ) (slabs : List Slab) : ℚ :=
  let out := trendsEcLoop slabs units 0 0
  if 0 < out.1 ∧ 0 < slabs.length then
    out.2 + out.1 * ((slabs.getLast?).getD ⟨0, 0⟩).rate
  else
    out.2

/-- The spec's well-formedness condition on a slab table: limits ascend,
starting from the given lower bound (`0` at the top level). -/
def Ascending : ℚ → List Slab → Prop
  | _, [] => True
  | p, slab :: rest => p ≤ slab.limit ∧ Ascending slab.limit rest

instance instDecidableAscending : ∀ (p : ℚ) (slabs : List Slab),
    Decidable (Ascending p slabs)
  | _, [] => .isTrue trivial
  | _, slab :: rest =>
    have : Decidable (Ascending slab.limit rest) := instDecidableAscending slab.limit rest
    inferInstanceAs (Decidable (_ ∧ _))

/-- The spec's description of tiered billing: each full tier, taken from the
running previous limit, billed at its own rate. -/
def tierSum : List Slab → ℚ → ℚ
  | [], _ => 0
  | slab :: rest, previousLimit =>
    (slab.limit - previousLimit) * slab.rate + tierSum rest slab.limit

/-- The slab table of the spec's end-to-end example. -/
def exSlabs : List Slab := [⟨50, 4⟩, ⟨100, 5⟩, ⟨99999, 6⟩]

/-- The tariff of the spec's end-to-end example. -/
def exTariff : TariffConfig :=
  { slabs := exSlabs, vatRate := 5 / 100, demandCharge := 100, meterRent := 50,
    bkashCharge := 10 }

/-- The per-period flags of the spec's end-to-end example. -/
def exConfig : BillConfig := { includeLateFee := false, includeBkashFee := true }

/-- The main meter of the spec's end-to-end example. -/
def exMain : MeterReading :=
  { id := "main", name := "Main", meterNo := "M-0", previous := 0, current := 120 }

/-- The two sub-meters of the spec's end-to-end example. -/
def exMeters : List MeterReading :=
  [{ id := "u1", name := "User 1", meterNo := "S-1", previous := 0, current := 60 },
   { id := "u2", name := "User 2", meterNo := "S-2", previous := 0, current := 60 }]

/-- A meter whose reading went backwards: `previous = 20`, `current = 10`. -/
def cexMeter : MeterReading :=
  { id := "w", name := "W", meterNo := "S-9", previous := 20, current := 10 }

/-- A degenerate (but accepted) tariff: no slabs, all charges zero. -/
def degenTariff : TariffConfig :=
  { slabs := [], vatRate := 0, demandCharge := 0, meterRent := 0, bkashCharge := 0 }

/-- A main meter with one unit of consumption. -/
def cexMain : MeterReading :=
  { id := "m", name := "Main", meterNo := "M-1", previous := 0, current := 1 }

/-- Two sub-meters whose clamped consumptions are both zero. -/
def zMeters : List MeterReading :=
  [{ id := "z1", name := "Z1", meterNo := "S-3", previous := 5, current := 5 },
   { id := "z2", name := "Z2", meterNo := "S-4", previous := 7, current := 3 }]

/-! ### Helper lemmas about the slab loop -/

lemma subUnit_eq_max (m : MeterReading) :
    subUnit m = max 0 (m.current - m.previous) := by
  simp only [subUnit, max_def]
  split_ifs <;> linarith

/-- One step of the loop, with the guarded update rewritten as the uniform
update by the clamped quantity `max 0 (min r (slab.limit - p))`. -/
lemma ecLoop_cons (slab : Slab) (rest : List Slab) (r c p : ℚ) :
    ecLoop (slab :: rest) r c p =
      (if r - max 0 (min r (slab.limit - p)) ≤ 0 then
        (r - max 0 (min r (slab.limit - p)),
         c + max 0 (min r (slab.limit - p)) * slab.rate)
      else
        ecLoop rest (r - max 0 (min r (slab.limit - p)))
          (c + max 0 (min r (slab.limit - p)) * slab.rate) slab.limit) := by
  simp only [ecLoop]
  rcases lt_or_le 0 (min r (slab.limit - p)) with h | h
  · rw [if_pos h, max_eq_right h.le]
  · rw [if_neg (not_lt.mpr h), max_eq_left h, sub_zero, zero_mul, add_zero]

/-- With nonnegative rates the accumulator never decreases along the loop. -/
lemma ecLoop_cost_le (slabs : List Slab) :
    ∀ r c p, (∀ s ∈ slabs, 0 ≤ s.rate) → c ≤ (ecLoop slabs r c p).2 := by
  induction slabs with
  | nil => intro r c p _; simp [ecLoop]
  | cons slab rest ih =>
    intro r c p h
    have hrate : 0 ≤ slab.rate := h slab (List.mem_cons_self slab rest)
    have hrest : ∀ s ∈ rest, 0 ≤ s.rate := fun s hs => h s (List.mem_cons_of_mem slab hs)
    rw [ecLoop_cons]
    have hstep : c ≤ c + max 0 (min r (slab.limit - p)) * slab.rate := by
      have := mul_nonneg (le_max_left 0 (min r (slab.limit - p))) hrate
      linarith
    split_ifs with hbr
    · exact hstep
    · exact le_trans hstep (ih _ _ _ hrest)

/-- With strictly positive rates, a run that starts with positive remaining
units and drains them strictly increases the accumulator. -/
lemma ecLoop_cost_lt (slabs : List Slab) :
    ∀ r c p, (∀ s ∈ slabs, 0 < s.rate) → 0 < r →
      (ecLoop slabs r c p).1 ≤ 0 → c < (ecLoop slabs r c p).2 := by
  induction slabs with
  | nil =>
    intro r c p _ hr hout
    simp only [ecLoop] at hout
    linarith
  | cons slab rest ih =>
    intro r c p h hr hout
    have hrate : 0 < slab.rate := h slab (List.mem_cons_self slab rest)
    have hrest : ∀ s ∈ rest, 0 < s.rate := fun s hs => h s (List.mem_cons_of_mem slab hs)
    rw [ecLoop_cons] at hout ⊢
    rcases eq_or_lt_of_le (le_max_left 0 (min r (slab.limit - p))) with h0 | h0
    · rw [← h0, sub_zero, zero_mul, add_zero] at hout ⊢
      rw [if_neg (not_le.mpr hr)] at hout ⊢
      exact ih r c slab.limit hrest hr hout
    · have hmul := mul_pos h0 hrate
      split_ifs with hbr
      · show c < c + max 0 (min r (slab.limit - p)) * slab.rate
        linarith
      · have hcle := ecLoop_cost_le rest (r - max 0 (min r (slab.limit - p)))
          (c + max 0 (min r (slab.limit - p)) * slab.rate) slab.limit
          (fun s hs => (hrest s hs).le)
        linarith

lemma clamp_mono {r₁ r₂ : ℚ} (sz : ℚ) (h : r₁ ≤ r₂) :
    max 0 (min r₁ sz) ≤ max 0 (min r₂ sz) := by
  simp only [max_def, min_def]
  split_ifs <;> linarith

lemma sub_clamp_mono {r₁ r₂ : ℚ} (sz : ℚ) (h : r₁ ≤ r₂) :
    r₁ - max 0 (min r₁ sz) ≤ r₂ - max 0 (min r₂ sz) := by
  simp only [max_def, min_def]
  split_ifs <;> linarith

/-- Core monotonicity invariant of the loop: with nonnegative rates and a
nonnegative overflow rate `q`, the quantity `cost + max 0 remaining * q` is
monotone in the initial remaining units and the initial accumulator. -/
lemma ecLoop_mono (slabs : List Slab) :
    ∀ p r₁ r₂ c₁ c₂ q, (∀ s ∈ slabs, 0 ≤ s.rate) → 0 ≤ q → r₁ ≤ r₂ → c₁ ≤ c₂ →
      (ecLoop slabs r₁ c₁ p).2 + max 0 (ecLoop slabs r₁ c₁ p).1 * q ≤
      (ecLoop slabs r₂ c₂ p).2 + max 0 (ecLoop slabs r₂ c₂ p).1 * q := by
  induction slabs with
  | nil =>
    intro p r₁ r₂ c₁ c₂ q _ hq hr hc
    simp only [ecLoop]
    have := mul_le_mul_of_nonneg_right (max_le_max (le_refl (0 : ℚ)) hr) hq
    linarith
  | cons slab rest ih =>
    intro p r₁ r₂ c₁ c₂ q h hq hr hc
    have hrate : 0 ≤ slab.rate := h slab (List.mem_cons_self slab rest)
    have hrest : ∀ s ∈ rest, 0 ≤ s.rate := fun s hs => h s (List.mem_cons_of_mem slab hs)
    rw [ecLoop_cons, ecLoop_cons]
    have hu : max 0 (min r₁ (slab.limit - p)) ≤ max 0 (min r₂ (slab.limit - p)) :=
      clamp_mono _ hr
    have hC : c₁ + max 0 (min r₁ (slab.limit - p)) * slab.rate ≤
        c₂ + max 0 (min r₂ (slab.limit - p)) * slab.rate := by
      have := mul_le_mul_of_nonneg_right hu hrate
      linarith
    have hR : r₁ - max 0 (min r₁ (slab.limit - p)) ≤
        r₂ - max 0 (min r₂ (slab.limit - p)) := sub_clamp_mono _ hr
    split_ifs with h₁ h₂ h₂
    · have m₁ : max 0 (r₁ - max 0 (min r₁ (slab.limit - p))) = 0 := max_eq_left h₁
      have m₂ : max 0 (r₂ - max 0 (min r₂ (slab.limit - p))) = 0 := max_eq_left h₂
      show c₁ + max 0 (min r₁ (slab.limit - p)) * slab.rate +
          max 0 (r₁ - max 0 (min r₁ (slab.limit - p))) * q ≤
        c₂ + max 0 (min r₂ (slab.limit - p)) * slab.rate +
          max 0 (r₂ - max 0 (min r₂ (slab.limit - p))) * q
      rw [m₁, m₂]
      linarith
    · have m₁ : max 0 (r₁ - max 0 (min r₁ (slab.limit - p))) = 0 := max_eq_left h₁
      have hcle := ecLoop_cost_le rest (r₂ - max 0 (min r₂ (slab.limit - p)))
        (c₂ + max 0 (min r₂ (slab.limit - p)) * slab.rate) slab.limit hrest
      have hnn : 0 ≤ max 0 (ecLoop rest (r₂ - max 0 (min r₂ (slab.limit - p)))
          (c₂ + max 0 (min r₂ (slab.limit - p)) * slab.rate) slab.limit).1 * q :=
        mul_nonneg (le_max_left _ _) hq
      show c₁ + max 0 (min r₁ (slab.limit - p)) * slab.rate +
          max 0 (r₁ - max 0 (min r₁ (slab.limit - p))) * q ≤ _
      rw [m₁]
      linarith
    · linarith
    · exact ih slab.limit _ _ _ _ q hrest hq hR hC

/-- For a non-empty table, the evaluator equals loop cost plus the clamped
remainder billed at the last slab's rate. -/
lemma calculateEnergyCost_max_form (units : ℚ) (slabs : List Slab)
    (hne : slabs ≠ []) :
    calculateEnergyCost units slabs =
      (ecLoop slabs units 0 0).2 +
        max 0 (ecLoop slabs units 0 0).1 * (slabs.getLast hne).rate := by
  simp only [calculateEnergyCost]
  rw [List.getLast?_eq_getLast_of_ne_nil hne, Option.getD_some]
  have hlen : 0 < slabs.length := List.length_pos.mpr hne
  split_ifs with h
  · rw [max_eq_right h.1.le]
  · have hle : (ecLoop slabs units 0 0).1 ≤ 0 := by
      by_contra hc
      push_neg at hc
      exact h ⟨hc, hlen⟩
    rw [max_eq_left hle, zero_mul, add_zero]

lemma ascending_le_last (slabs : List Slab) :
    ∀ (p : ℚ) (last : Slab), Ascending p slabs → slabs.getLast? = some last →
      p ≤ last.limit := by
  induction slabs with
  | nil => intro p last _ hlast; simp at hlast
  | cons slab rest ih =>
    intro p last hasc hlast
    cases rest with
    | nil =>
      simp only [List.getLast?_singleton, Option.some.injEq] at hlast
      rw [← hlast]
      exact hasc.1
    | cons b t =>
      rw [List.getLast?_cons_cons] at hlast
      exact le_trans hasc.1 (ih slab.limit last hasc.2 hlast)

/-- Closed form of the loop on an ascending table when the initial remaining
units strictly exceed the distance to the last limit: every tier is filled and
billed at its own rate. -/
lemma ecLoop_overflow (slabs : List Slab) :
    ∀ (p r c : ℚ) (last : Slab), Ascending p slabs →
      slabs.getLast? = some last → last.limit - p < r →
      ecLoop slabs r c p = (r - (last.limit - p), c + tierSum slabs p) := by
  induction slabs with
  | nil => intro p r c last _ hlast _; simp at hlast
  | cons slab rest ih =>
    intro p r c last hasc hlast hr
    have hsize : 0 ≤ slab.limit - p := by linarith [hasc.1]
    have hlimle : slab.limit ≤ last.limit := by
      cases rest with
      | nil =>
        simp only [List.getLast?_singleton, Option.some.injEq] at hlast
        rw [← hlast]
      | cons b t =>
        rw [List.getLast?_cons_cons] at hlast
        exact ascending_le_last (b :: t) slab.limit last hasc.2 hlast
    have hmin : min r (slab.limit - p) = slab.limit - p :=
      min_eq_right (by linarith)
    have hclamp : max 0 (min r (slab.limit - p)) = slab.limit - p := by
      rw [hmin]
      exact max_eq_right hsize
    rw [ecLoop_cons, hclamp]
    cases rest with
    | nil =>
      simp only [List.getLast?_singleton, Option.some.injEq] at hlast
      rw [← hlast] at hr ⊢
      have : ¬ r - (slab.limit - p) ≤ 0 := by linarith
      rw [if_neg this]
      simp only [ecLoop, tierSum, Prod.mk.injEq]
      constructor <;> ring_nf
    | cons b t =>
      rw [List.getLast?_cons_cons] at hlast
      have hlast_le : slab.limit ≤ last.limit :=
        ascending_le_last (b :: t) slab.limit last hasc.2 hlast
      have hr' : last.limit - slab.limit < r - (slab.limit - p) := by linarith
      have hnb : ¬ r - (slab.limit - p) ≤ 0 := by linarith
      rw [if_neg hnb]
      rw [ih slab.limit (r - (slab.limit - p))
        (c + (slab.limit - p) * slab.rate) last hasc.2 hlast hr']
      simp only [tierSum, Prod.mk.injEq]
      constructor <;> ring

/-- With a non-empty table of strictly positive rates, positive consumption
yields strictly positive cost. -/
lemma calculateEnergyCost_pos (units : ℚ) (slabs : List Slab)
    (hne : slabs ≠ []) (hrates : ∀ s ∈ slabs, 0 < s.rate) (hu : 0 < units) :
    0 < calculateEnergyCost units slabs := by
  rw [calculateEnergyCost_max_form units slabs hne]
  have hlrate : 0 < (slabs.getLast hne).rate := hrates _ (List.getLast_mem hne)
  rcases le_or_lt (ecLoop slabs units 0 0).1 0 with hout | hout
  · have := ecLoop_cost_lt slabs units 0 0 hrates hu hout
    rw [max_eq_left hout, zero_mul, add_zero]
    exact this
  · have h2 := ecLoop_cost_le slabs units 0 0 (fun s hs => (hrates s hs).le)
    have := mul_pos (lt_of_lt_of_le hout (le_max_right 0 _)) hlrate
    nlinarith [mul_pos hout hlrate, max_eq_right hout.le]

/-! ### Helper lemmas about the allocation engine -/

/-- The payable column of the engine's output, as a map over the sub-meters. -/
lemma userCalculations_payable_map (config : BillConfig) (mainMeter : MeterReading)
    (meters : List MeterReading) (tariffConfig : TariffConfig) :
    (calculateBillBreakdown config mainMeter meters tariffConfig).userCalculations.map
      (fun u => u.totalPayable) =
    meters.map (fun m =>
      max 0 (m.current - m.previous) * calculatedRate mainMeter meters tariffConfig +
        fixedCostPerUser config mainMeter meters tariffConfig) := by
  simp only [calculateBillBreakdown, List.map_map]
  rfl

lemma sum_map_payable (meters : List MeterReading) (r f : ℚ) :
    (meters.map (fun m => max 0 (m.current - m.previous) * r + f)).sum =
      totalSubmeterUnits meters * r + (meters.length : ℚ) * f := by
  induction meters with
  | nil => simp [totalSubmeterUnits]
  | cons m t ih =>
    simp only [List.map_cons, List.sum_cons, ih, totalSubmeterUnits, List.length_cons]
    rw [subUnit_eq_max]
    push_cast
    ring

/-! ### Claims -/

/-- C1: Reconciliation invariant — for every call to `calculateBillBreakdown`
with a non-empty `subMeters` list whose `totalSubmeterUnits` is strictly
positive, the sum of `userCalculations[i].totalPayable` equals
`totalCollection` exactly. -/
theorem reconciliation_invariant (config : BillConfig) (mainMeter : MeterReading)
    (meters : List MeterReading) (tariffConfig : TariffConfig)
    (hne : meters ≠ []) (hpos : 0 < totalSubmeterUnits meters) :
    ((calculateBillBreakdown config mainMeter meters tariffConfig).userCalculations.map
      (fun u => u.totalPayable)).sum =
    (calculateBillBreakdown config mainMeter meters tariffConfig).totalCollection := by
  rw [userCalculations_payable_map, sum_map_payable]
  have hlen : 0 < meters.length := List.length_pos.mpr hne
  have hlenQ : ((meters.length : ℚ)) ≠ 0 := by
    exact_mod_cast Nat.pos_iff_ne_zero.mp hlen
  have hU : totalSubmeterUnits meters ≠ 0 := ne_of_gt hpos
  rw [calculatedRate, if_pos hpos, fixedCostPerUser, if_pos hlen]
  have e1 : totalSubmeterUnits meters *
      (energySharedPool mainMeter tariffConfig / totalSubmeterUnits meters) =
      energySharedPool mainMeter tariffConfig := by
    field_simp
  have e2 : (meters.length : ℚ) *
      (fixedSharedPool config mainMeter tariffConfig / (meters.length : ℚ)) =
      fixedSharedPool config mainMeter tariffConfig := by
    field_simp
  rw [e1, e2]
  simp only [calculateBillBreakdown, totalBillCalculated, energySharedPool,
    fixedSharedPool, vatDistributed, taxableBase]
  ring

/-- Witness for C1 at the spec's end-to-end example. -/
theorem reconciliation_invariant_witness :
    ((calculateBillBreakdown exConfig exMain exMeters exTariff).userCalculations.map
      (fun u => u.totalPayable)).sum =
    (calculateBillBreakdown exConfig exMain exMeters exTariff).totalCollection :=
  reconciliation_invariant exConfig exMain exMeters exTariff
    (List.cons_ne_nil _ _)
    (by norm_num [totalSubmeterUnits, subUnit, exMeters])

/-- C2: End-to-end worked example — the engine on the spec's example inputs
returns exactly the listed figures, and the two users' payables sum to the
total collection. -/
theorem end_to_end_example :
    energyCostBase exMain exTariff = 570 ∧
    (calculateBillBreakdown exConfig exMain exMeters exTariff).vatTotal = 36 ∧
    (calculateBillBreakdown exConfig exMain exMeters exTariff).totalCollection = 766 ∧
    (calculateBillBreakdown exConfig exMain exMeters exTariff).totalUnits = 120 ∧
    (calculateBillBreakdown exConfig exMain exMeters exTariff).vatFixed = 7.5 ∧
    (calculateBillBreakdown exConfig exMain exMeters exTariff).vatDistributed = 28.5 ∧
    fixedCostPerUser exConfig exMain exMeters exTariff = 83.75 ∧
    (calculateBillBreakdown exConfig exMain exMeters exTariff).calculatedRate = 4.9875 ∧
    (calculateBillBreakdown exConfig exMain exMeters exTariff).userCalculations.map
      (fun u => u.totalPayable) = [383, 383] ∧
    ((calculateBillBreakdown exConfig exMain exMeters exTariff).userCalculations.map
      (fun u => u.totalPayable)).sum =
    (calculateBillBreakdown exConfig exMain exMeters exTariff).totalCollection := by
  norm_num [calculateBillBreakdown, calculatedRate, fixedCostPerUser, fixedSharedPool,
    energySharedPool, totalSubmeterUnits, subUnit, vatDistributed, vatFixed,
    totalBillCalculated, bkash, lateFee, vatTotal, taxableBase, fixedBase,
    energyCostBase, mainUnits, calculateEnergyCost, ecLoop, exSlabs, exTariff,
    exConfig, exMain, exMeters, min_def, max_def]

/-- C4: Late fee duplication — `lateFee` equals `vatTotal` exactly when
`includeLateFee` is set, and `0` otherwise. -/
theorem lateFee_duplication (config : BillConfig) (mainMeter : MeterReading)
    (meters : List MeterReading) (tariffConfig : TariffConfig) :
    (calculateBillBreakdown config mainMeter meters tariffConfig).lateFee =
      if config.includeLateFee then
        (calculateBillBreakdown config mainMeter meters tariffConfig).vatTotal
      else 0 := by
  simp only [calculateBillBreakdown, lateFee]

/-- C8: Negative delta clamp — a meter read backwards contributes zero
consumption at every use site: the main-meter units, the sub-meter
contribution to `totalSubmeterUnits`, and the `unitsUsed` of its user row. -/
theorem negative_delta_clamp (m : MeterReading) (h : m.current < m.previous)
    (config : BillConfig) (mainMeter : MeterReading) (meters : List MeterReading)
    (tariffConfig : TariffConfig) :
    mainUnits m = 0 ∧ subUnit m = 0 ∧
      totalSubmeterUnits (m :: meters) = totalSubmeterUnits meters ∧
      ∀ uc ∈ (calculateBillBreakdown config mainMeter meters tariffConfig).userCalculations,
        uc.current < uc.previous → uc.unitsUsed = 0 := by
  have h1 : mainUnits m = 0 := max_eq_left (by linarith)
  have h2 : subUnit m = 0 := by
    simp only [subUnit]
    rw [if_neg (by linarith : ¬ (0 : ℚ) < m.current - m.previous)]
  refine ⟨h1, h2, ?_, ?_⟩
  · simp only [totalSubmeterUnits, List.map_cons, List.sum_cons, h2, zero_add]
  · intro uc huc hlt
    simp only [calculateBillBreakdown, List.mem_map] at huc
    obtain ⟨m', hm', rfl⟩ := huc
    dsimp only at hlt ⊢
    exact max_eq_left (by linarith)

/-- Witness for C8 at `previous = 20`, `current = 10`. -/
theorem negative_delta_clamp_witness :
    mainUnits cexMeter = 0 ∧ subUnit cexMeter = 0 :=
  ⟨(negative_delta_clamp cexMeter (by norm_num [cexMeter]) exConfig exMain [] exTariff).1,
   (negative_delta_clamp cexMeter (by norm_num [cexMeter]) exConfig exMain [] exTariff).2.1⟩

/-- C3 counterexample: with `subMeters = []`, a main meter with one unit of
consumption, and a degenerate tariff (no slabs, all charges zero),
`mainUnits > 0` yet `totalCollection = 0`, refuting the claim's unconditional
"nonzero whenever mainUnits > 0". -/
theorem zero_submeter_nonzero_cex :
    0 < mainUnits cexMain ∧
    (calculateBillBreakdown exConfig cexMain [] degenTariff).totalCollection = 0 := by
  norm_num [mainUnits, cexMain, calculateBillBreakdown, totalBillCalculated,
    taxableBase, energyCostBase, fixedBase, vatTotal, lateFee, bkash, degenTariff,
    exConfig, calculateEnergyCost, ecLoop, max_def]

/-- C3 amended: with `subMeters = []` the engine returns `totalUnits = 0`,
`userCalculations = []`, `calculatedRate = 0`, `fixedCostPerUser = 0`, and
`totalCollection` — computed from the main meter and tariff alone — is
strictly positive whenever `mainUnits > 0`, provided the tariff is
non-degenerate: non-empty slabs with strictly positive rates and nonnegative
`vatRate`, `demandCharge`, `meterRent`, `bkashCharge`. -/
theorem zero_submeter_degradation (config : BillConfig) (mainMeter : MeterReading)
    (tariffConfig : TariffConfig)
    (hslabs : tariffConfig.slabs ≠ [])
    (hrates : ∀ s ∈ tariffConfig.slabs, 0 < s.rate)
    (hvat : 0 ≤ tariffConfig.vatRate) (hdc : 0 ≤ tariffConfig.demandCharge)
    (hmr : 0 ≤ tariffConfig.meterRent) (hbk : 0 ≤ tariffConfig.bkashCharge)
    (hmain : 0 < mainUnits mainMeter) :
    (calculateBillBreakdown config mainMeter [] tariffConfig).totalUnits = 0 ∧
    (calculateBillBreakdown config mainMeter [] tariffConfig).userCalculations = [] ∧
    (calculateBillBreakdown config mainMeter [] tariffConfig).calculatedRate = 0 ∧
    fixedCostPerUser config mainMeter [] tariffConfig = 0 ∧
    0 < (calculateBillBreakdown config mainMeter [] tariffConfig).totalCollection := by
  have hE : 0 < energyCostBase mainMeter tariffConfig :=
    calculateEnergyCost_pos _ _ hslabs hrates hmain
  have hF : 0 ≤ fixedBase tariffConfig := by
    simp only [fixedBase]
    linarith
  have hVat : 0 ≤ vatTotal mainMeter tariffConfig := by
    simp only [vatTotal, taxableBase]
    exact mul_nonneg (by linarith) hvat
  refine ⟨?_, ?_, ?_, ?_, ?_⟩
  · simp [calculateBillBreakdown, totalSubmeterUnits]
  · simp [calculateBillBreakdown]
  · simp [calculateBillBreakdown, calculatedRate, totalSubmeterUnits]
  · simp [fixedCostPerUser]
  · simp only [calculateBillBreakdown, totalBillCalculated, taxableBase, lateFee, bkash]
    have htx : taxableBase mainMeter tariffConfig =
        energyCostBase mainMeter tariffConfig + fixedBase tariffConfig := rfl
    split_ifs <;> simp only [taxableBase] at * <;> linarith

/-- Witness for C3 amended, at the example tariff with no sub-meters. -/
theorem zero_submeter_degradation_witness :
    (calculateBillBreakdown exConfig exMain [] exTariff).userCalculations = [] ∧
    0 < (calculateBillBreakdown exConfig exMain [] exTariff).totalCollection :=
  ⟨(zero_submeter_degradation exConfig exMain exTariff
      (by exact List.cons_ne_nil _ _) (by norm_num [exTariff, exSlabs])
      (by norm_num [exTariff]) (by norm_num [exTariff]) (by norm_num [exTariff])
      (by norm_num [exTariff]) (by norm_num [mainUnits, exMain, max_def])).2.1,
   (zero_submeter_degradation exConfig exMain exTariff
      (by exact List.cons_ne_nil _ _) (by norm_num [exTariff, exSlabs])
      (by norm_num [exTariff]) (by norm_num [exTariff]) (by norm_num [exTariff])
      (by norm_num [exTariff]) (by norm_num [mainUnits, exMain, max_def])).2.2.2.2⟩

/-- C5 counterexample: with the slab table `[{limit 10, rate -1}]` (a negative
rate, which the claim explicitly allows), `0 ≤ 5` but
`energyCost(0) = 0 > -5 = energyCost(5)`: the evaluator is not monotone for
arbitrary slab tables. -/
theorem slab_monotonicity_cex :
    (0 : ℚ) ≤ 5 ∧
    ¬ calculateEnergyCost 0 [⟨10, -1⟩] ≤ calculateEnergyCost 5 [⟨10, -1⟩] := by
  norm_num [calculateEnergyCost, ecLoop, min_def]

/-- C5 amended: for every slab table all of whose rates are nonnegative, the
evaluator is non-decreasing in its units argument. -/
theorem slab_monotonicity (slabs : List Slab)
    (hrates : ∀ s ∈ slabs, 0 ≤ s.rate) (u₁ u₂ : ℚ) (h : u₁ ≤ u₂) :
    calculateEnergyCost u₁ slabs ≤ calculateEnergyCost u₂ slabs := by
  rcases eq_or_ne slabs [] with rfl | hne
  · simp [calculateEnergyCost, ecLoop]
  · rw [calculateEnergyCost_max_form u₁ slabs hne,
      calculateEnergyCost_max_form u₂ slabs hne]
    exact ecLoop_mono slabs 0 u₁ u₂ 0 0 _ hrates
      (hrates _ (List.getLast_mem hne)) h le_rfl

/-- Witness for C5 amended on `[{limit 100, rate 5}]`, `50 ≤ 150`. -/
theorem slab_monotonicity_witness :
    calculateEnergyCost 50 [⟨100, 5⟩] ≤ calculateEnergyCost 150 [⟨100, 5⟩] :=
  slab_monotonicity [⟨100, 5⟩] (by norm_num) 50 150 (by norm_num)

/-- C6: Overflow policy — on a non-empty ascending table with `units` beyond
the last limit, each full tier is billed at its own rate (`tierSum`) and the
remainder at the last slab's rate. -/
theorem energyCost_overflow_policy (slabs : List Slab) (units : ℚ) (last : Slab)
    (hasc : Ascending 0 slabs) (hlast : slabs.getLast? = some last)
    (hunits : last.limit < units) :
    calculateEnergyCost units slabs =
      tierSum slabs 0 + (units - last.limit) * last.rate := by
  have hne : slabs ≠ [] := by rintro rfl; simp at hlast
  have hloop := ecLoop_overflow slabs 0 units 0 last hasc hlast (by linarith)
  simp only [calculateEnergyCost]
  rw [hloop]
  have hgl : slabs.getLast hne = last := by
    rw [List.getLast?_eq_getLast_of_ne_nil hne] at hlast
    simpa using hlast
  rw [if_pos ⟨by dsimp only; linarith, List.length_pos.mpr hne⟩]
  rw [List.getLast?_eq_getLast_of_ne_nil hne, Option.getD_some, hgl]
  dsimp only
  ring

/-- Witness for C6: `energyCost(150, [{limit 100, rate 5}]) = 750`. -/
theorem energyCost_overflow_policy_witness :
    calculateEnergyCost 150 [⟨100, 5⟩] = 750 := by
  have h := energyCost_overflow_policy [⟨100, 5⟩] 150 ⟨100, 5⟩
    (by norm_num [Ascending]) (by simp) (by norm_num)
  norm_num [tierSum] at h
  linarith

/-- C7: Slab boundary exactness — for a non-empty ascending table,
`energyCost(slabs[0].limit, slabs)` is exactly `slabs[0].limit * slabs[0].rate`,
with no contribution from later tiers and no overflow charge. -/
theorem slab_boundary_exact (slab : Slab) (rest : List Slab)
    (hasc : Ascending 0 (slab :: rest)) :
    calculateEnergyCost slab.limit (slab :: rest) = slab.limit * slab.rate := by
  have h0 : 0 ≤ slab.limit := hasc.1
  have hloop : ecLoop (slab :: rest) slab.limit 0 0 = (0, 0 + slab.limit * slab.rate) := by
    rw [ecLoop_cons, sub_zero, min_self, max_eq_right h0, sub_self, if_pos le_rfl]
  simp only [calculateEnergyCost]
  rw [hloop]
  norm_num

/-- Witness for C7 on `[{limit 100, rate 5}]`. -/
theorem slab_boundary_exact_witness :
    calculateEnergyCost 100 [⟨100, 5⟩] = 100 * 5 :=
  slab_boundary_exact ⟨100, 5⟩ [] (by norm_num [Ascending])

lemma ecLoop2_eq (slabs : List Slab) :
    ∀ r c p, ecLoop2 slabs r c p = ecLoop slabs r c p := by
  induction slabs with
  | nil => intro r c p; rfl
  | cons slab rest ih =>
    intro r c p
    simp only [ecLoop, ecLoop2]
    split_ifs <;> first | rfl | apply ih

lemma trendsEcLoop_eq (slabs : List Slab) :
    ∀ r c p, trendsEcLoop slabs r c p = ecLoop slabs r c p := by
  induction slabs with
  | nil => intro r c p; rfl
  | cons slab rest ih =>
    intro r c p
    simp only [ecLoop, trendsEcLoop]
    split_ifs <;> first | rfl | apply ih

/-- C9: Duplicate-definition equivalence — the three textually duplicated
copies of the tiered evaluator (the two in src/App.tsx and the one in
src/components/TrendsDashboard.tsx) agree on every input. -/
theorem duplicate_evaluators_equal (units : ℚ) (slabs : List Slab) :
    calculateEnergyCost2 units slabs = calculateEnergyCost units slabs ∧
    trendsCalculateEnergyCost units slabs = calculateEnergyCost units slabs := by
  constructor <;>
    simp only [calculateEnergyCost, calculateEnergyCost2, trendsCalculateEnergyCost,
      ecLoop2_eq, trendsEcLoop_eq]

/-- C10: Reconciliation gap at zero sub-meter consumption — with non-empty
sub-meters all of whose clamped deltas are zero, every user row has zero
energy cost and pays exactly the even share of `fixedSharedPool`; the payables
sum to `fixedSharedPool`, and fall short of `totalCollection` by exactly
`energyCostBase + vatDistributed`. -/
theorem zero_consumption_gap (config : BillConfig) (mainMeter : MeterReading)
    (meters : List MeterReading) (tariffConfig : TariffConfig)
    (hne : meters ≠ []) (hzero : totalSubmeterUnits meters = 0) :
    (∀ uc ∈ (calculateBillBreakdown config mainMeter meters tariffConfig).userCalculations,
      uc.energyCost = 0 ∧
      uc.totalPayable =
        fixedSharedPool config mainMeter tariffConfig / (meters.length : ℚ)) ∧
    ((calculateBillBreakdown config mainMeter meters tariffConfig).userCalculations.map
      (fun u => u.totalPayable)).sum = fixedSharedPool config mainMeter tariffConfig ∧
    (calculateBillBreakdown config mainMeter meters tariffConfig).totalCollection -
      ((calculateBillBreakdown config mainMeter meters tariffConfig).userCalculations.map
        (fun u => u.totalPayable)).sum =
      energyCostBase mainMeter tariffConfig + vatDistributed mainMeter tariffConfig := by
  have hlen : 0 < meters.length := List.length_pos.mpr hne
  have hlenQ : ((meters.length : ℚ)) ≠ 0 := by
    exact_mod_cast Nat.pos_iff_ne_zero.mp hlen
  have hrate : calculatedRate mainMeter meters tariffConfig = 0 := by
    rw [calculatedRate, hzero]
    simp
  have hfcpu : fixedCostPerUser config mainMeter meters tariffConfig =
      fixedSharedPool config mainMeter tariffConfig / (meters.length : ℚ) := by
    rw [fixedCostPerUser, if_pos hlen]
  have hsum : ((calculateBillBreakdown config mainMeter meters
      tariffConfig).userCalculations.map (fun u => u.totalPayable)).sum =
      fixedSharedPool config mainMeter tariffConfig := by
    rw [userCalculations_payable_map, sum_map_payable, hrate, hfcpu, mul_zero, zero_add]
    field_simp
  refine ⟨?_, hsum, ?_⟩
  · intro uc huc
    simp only [calculateBillBreakdown, List.mem_map] at huc
    obtain ⟨m, hm, rfl⟩ := huc
    dsimp only
    rw [hrate, hfcpu, mul_zero, zero_add]
    exact ⟨rfl, rfl⟩
  · rw [hsum]
    simp only [calculateBillBreakdown, totalBillCalculated, fixedSharedPool,
      taxableBase, vatDistributed]
    ring

/-- Witness for C10 on two sub-meters with zero and negative deltas. -/
theorem zero_consumption_gap_witness :
    ((calculateBillBreakdown exConfig exMain zMeters exTariff).userCalculations.map
      (fun u => u.totalPayable)).sum = fixedSharedPool exConfig exMain exTariff :=
  (zero_consumption_gap exConfig exMain zMeters exTariff (List.cons_ne_nil _ _)
    (by norm_num [totalSubmeterUnits, subUnit, zMeters])).2.1

end ElectricityBill
